import Mathlib

/-!
Verification of the `setup.py` build script of the jpype repository and of
the marshaling-engine properties stated by its design spec.

Python strings are modelled as lists of characters (`Str`), Python `None`
versus string values as `Option Str`, and Python truthiness of such an
optional string by `pyTruthy`.  Fallible top-level script fragments
(`raise SystemExit` / `raise RuntimeError`) are modelled with `PyResult`.
-/

namespace Jpype

/-- Python strings, modelled as lists of characters. -/
abbrev Str := List Char

/-- Coerce a Lean string literal to the `Str` model. -/
def str (s : String) : Str := s.data

/-- Python truthiness of an optional string: `None` and `""` are falsy. -/
def pyTruthy : Option Str → Bool
  | none => false
  | some s => !s.isEmpty

/-- Outcome of a script fragment that may abort (`SystemExit`/`RuntimeError`). -/
inductive PyResult (ε : Type) (α : Type) where
  | error (e : ε)
  | ok (a : α)
deriving DecidableEq

/-- `os.path.join(a, b)` for POSIX-style paths, two components. -/
def joinPath (a b : Str) : Str :=
  if b.head? = some '/' then b
  else if a = [] then b
  else if a.getLast? = some '/' then a ++ b
  else a ++ '/' :: b

/-- A path component that does not start with a separator, as every
filename and directory name reported by `os.walk` does. -/
def goodNameB : Str → Bool
  | '/' :: _ => false
  | _ => true

theorem goodNameB_head {b : Str} (h : goodNameB b = true) : b.head? ≠ some '/' := by
  cases b with
  | nil => simp
  | cons c cs =>
    intro hc
    simp at hc
    subst hc
    simp [goodNameB] at h

theorem joinPath_pre {a b : Str} (ha : a ≠ []) (hb : goodNameB b = true) :
    a <+: joinPath a b := by
  unfold joinPath
  rw [if_neg (goodNameB_head hb), if_neg ha]
  split
  · exact ⟨b, rfl⟩
  · exact ⟨'/' :: b, rfl⟩

theorem joinPath_ne_nil {a b : Str} (ha : a ≠ []) (hb : goodNameB b = true) :
    joinPath a b ≠ [] := by
  unfold joinPath
  rw [if_neg (goodNameB_head hb), if_neg ha]
  split <;> simp [ha]

/-! ### The directory tree walked by `find_sources` -/

mutual

/-- A directory: its regular filenames and its subdirectories. -/
inductive DirTree : Type where
  | node (files : List Str) (subdirs : DirForest) : DirTree

/-- A list of named subdirectories. -/
inductive DirForest : Type where
  | nil : DirForest
  | cons (name : Str) (tree : DirTree) (rest : DirForest) : DirForest

end

mutual

/-- `os.walk(root)` on a modelled tree: top-down list of (dirpath, filenames). -/
def osWalk (root : Str) : DirTree → List (Str × List Str)
  | .node files subdirs => (root, files) :: osWalkForest root subdirs

/-- Walk each subdirectory of `root` in order. -/
def osWalkForest (root : Str) : DirForest → List (Str × List Str)
  | .nil => []
  | .cons name t rest => osWalk (joinPath root name) t ++ osWalkForest root rest

end

mutual

/-- Well-formedness: filenames and directory names never start with `/`. -/
def treeWFb : DirTree → Bool
  | .node files subdirs => files.all goodNameB && forestWFb subdirs

/-- Well-formedness of a subdirectory list. -/
def forestWFb : DirForest → Bool
  | .nil => true
  | .cons name t rest => goodNameB name && treeWFb t && forestWFb rest

end

mutual

theorem osWalk_entries (root : Str) (t : DirTree) (hr : root ≠ [])
    (hw : treeWFb t = true) :
    ∀ p ∈ osWalk root t, root <+: p.1 ∧ ∀ f ∈ p.2, goodNameB f = true := by
  match t with
  | .node files subdirs =>
    simp only [treeWFb, Bool.and_eq_true, List.all_eq_true] at hw
    intro p hp
    simp only [osWalk, List.mem_cons] at hp
    rcases hp with h | h
    · subst h
      exact ⟨List.prefix_rfl, hw.1⟩
    · exact osWalkForest_entries root subdirs hr hw.2 p h

theorem osWalkForest_entries (root : Str) (f : DirForest) (hr : root ≠ [])
    (hw : forestWFb f = true) :
    ∀ p ∈ osWalkForest root f, root <+: p.1 ∧ ∀ g ∈ p.2, goodNameB g = true := by
  match f with
  | .nil => intro p hp; simp [osWalkForest] at hp
  | .cons name t rest =>
    simp only [forestWFb, Bool.and_eq_true] at hw
    intro p hp
    simp only [osWalkForest, List.mem_append] at hp
    rcases hp with h | h
    · have hsub := osWalk_entries (joinPath root name) t
        (joinPath_ne_nil hr hw.1.1) hw.1.2 p h
      exact ⟨(joinPath_pre hr hw.1.1).trans hsub.1, hsub.2⟩
    · exact osWalkForest_entries root rest hr hw.2 p h

end

/-- A filename ending in `.cpp` or `.c`, as selected by `find_sources`. -/
def isSourceFile (f : Str) : Bool :=
  (str ".cpp").isSuffixOf f || (str ".c").isSuffixOf f

/-- `find_sources()`: recursive walk of the `native` tree collecting every
`.cpp` and `.c` file, joined with its directory path. -/
def find_sources (t : DirTree) : List Str :=
  (osWalk (str "native") t).flatMap
    (fun p => (p.2.filter isSourceFile).map (fun f => joinPath p.1 f))

theorem find_sources_under_native (t : DirTree) (hw : treeWFb t = true) :
    ∀ s ∈ find_sources t, str "native" <+: s := by
  intro s hs
  simp only [find_sources, List.mem_flatMap, List.mem_map, List.mem_filter] at hs
  obtain ⟨p, hp, f, ⟨hf, -⟩, rfl⟩ := hs
  have hnn : str "native" ≠ [] := by decide
  have hent := osWalk_entries (str "native") t hnn hw p hp
  have hdp : p.1 ≠ [] := by
    intro h
    rw [h] at hent
    exact hnn (List.prefix_nil.mp hent.1)
  exact hent.1.trans (joinPath_pre hdp (hent.2 f hf))

/-! ### The `Extension` object and the three platform branches -/

/-- The fields of a `setuptools.Extension` that the script manipulates. -/
structure Extension where
  name : Str
  sources : List Str
  include_dirs : List Str
  defineMacros : List (Str × Nat)
  libraries : List Str
  extra_compile_args : List Str
  extra_link_args : List Str
deriving DecidableEq

/-- The two include directories every `platform_specific` dict starts with:
`native/common/include` and `native/python/include`. -/
def base_include_dirs : List Str :=
  [joinPath (joinPath (str "native") (str "common")) (str "include"),
   joinPath (joinPath (str "native") (str "python")) (str "include")]

/-- The `_jpype` extension as assembled in the `win32` branch for a
(truthy) `JAVA_HOME` value `jh`. -/
def mkWinExt (t : DirTree) (jh : Str) : Extension :=
  { name := str "_jpype",
    sources := find_sources t,
    include_dirs := base_include_dirs ++
      [joinPath jh (str "include"),
       joinPath (joinPath jh (str "include")) (str "win32")],
    defineMacros := [(str "WIN32", 1)],
    libraries := [str "Advapi32"],
    extra_compile_args := [],
    extra_link_args := [] }

/-- The `win32` branch: with a falsy `JAVA_HOME` the script raises
`SystemExit('Environment variable JAVA_HOME must be set.')` before the
extension is constructed; otherwise the extension is assembled. -/
def winPlatform (t : DirTree) (jh : Option Str) : PyResult Str Extension :=
  if pyTruthy jh then .ok (mkWinExt t (jh.getD []))
  else .error (str "Environment variable JAVA_HOME must be set.")

/-- JDK discovery of the final (linux) branch: a truthy `JAVA_HOME` is used
unchanged; otherwise the candidates `glob('/usr/lib/jvm/*')` followed by
`glob('/usr/java/*')` are scanned and the first one with an existing
`include` subdirectory is taken; if none qualifies the script shows an
error listing the candidates and raises `RuntimeError`. -/
def linuxResolveJavaHome (jh : Option Str) (globJvm globJava : List Str)
    (pathExists : Str → Bool) : PyResult (List Str) Str :=
  if pyTruthy jh then .ok (jh.getD [])
  else
    match (globJvm ++ globJava).find?
        (fun home => pathExists (joinPath home (str "include"))) with
    | some home => .ok home
    | none => .error (globJvm ++ globJava)

/-- The `_jpype` extension as assembled in the linux branch for the
resolved java home `jh`. -/
def mkLinuxExt (t : DirTree) (jh : Str) : Extension :=
  { name := str "_jpype",
    sources := find_sources t,
    include_dirs := base_include_dirs ++
      [joinPath jh (str "include"),
       joinPath (joinPath jh (str "include")) (str "linux")],
    defineMacros := [],
    libraries := [str "dl"],
    extra_compile_args := [],
    extra_link_args := [] }

/-- The final (linux) branch of the script. -/
def linuxPlatform (t : DirTree) (jh : Option Str) (globJvm globJava : List Str)
    (pathExists : Str → Bool) : PyResult (List Str) Extension :=
  match linuxResolveJavaHome jh globJvm globJava pathExists with
  | .error e => .error e
  | .ok home => .ok (mkLinuxExt t home)

/-- The `darwin` branch, with the result of `getJDKIncludes` abstracted as
`jdkIncludes` (its computation involves `mac_ver` and a subprocess). -/
def darwinPlatform (t : DirTree) (jdkIncludes : List Str) : Extension :=
  { name := str "_jpype",
    sources := find_sources t,
    include_dirs := base_include_dirs ++ jdkIncludes,
    defineMacros := [(str "MACOSX", 1)],
    libraries := [str "dl"],
    extra_compile_args := [],
    extra_link_args := [] }

/-! ### `--disable-numpy` option parsing -/

/-- The command-line flag that opts out of numpy support. -/
def dFlag : Str := str "--disable-numpy"

/-- Python `list.remove`: drop the first occurrence of `v`. -/
def listRemoveFirst (v : Str) : List Str → List Str
  | [] => []
  | x :: xs => if x = v then xs else x :: listRemoveFirst v xs

/-- The top-level `--disable-numpy` check: result is `disabled_numpy`
together with the `sys.argv` left behind. -/
def parseArgv (argv : List Str) : Bool × List Str :=
  if dFlag ∈ argv then (true, listRemoveFirst dFlag argv)
  else (false, argv)

theorem listRemoveFirst_split (argv : List Str) (h : dFlag ∈ argv) :
    ∃ l1 l2, argv = l1 ++ dFlag :: l2 ∧ dFlag ∉ l1 ∧
      listRemoveFirst dFlag argv = l1 ++ l2 := by
  induction argv with
  | nil => cases h
  | cons x xs ih =>
    by_cases hx : x = dFlag
    · subst hx
      exact ⟨[], xs, rfl, by simp, by simp [listRemoveFirst]⟩
    · have hxs : dFlag ∈ xs := by
        rcases List.mem_cons.mp h with h' | h'
        · exact absurd h'.symm hx
        · exact h'
      obtain ⟨l1, l2, he, hn, hr⟩ := ih hxs
      refine ⟨x :: l1, l2, by simp [he], ?_, ?_⟩
      · simp [hn]
        intro hc
        exact hx hc.symm
      · simp [listRemoveFirst, hx, hr]

/-! ### `my_build_ext` -/

/-- The `copt` table of extra compile args, keyed by compiler type. -/
def copt (c : Str) : Option (List Str) :=
  if c = str "msvc" then some [str "/EHsc"]
  else if c = str "gcc" then some []
  else if c = str "mingw32" then some []
  else none

/-- The `lopt` table of extra link args, keyed by compiler type. -/
def lopt (c : Str) : Option (List Str) :=
  if c = str "mingw32" then some [] else none

/-- The flag-setting loops at the start of `build_extensions`, applied to
one extension. -/
def applyFlagsOne (c : Str) (e : Extension) : Extension :=
  let e1 := match copt c with
    | some args => { e with extra_compile_args := args }
    | none => e
  match lopt c with
  | some args => { e1 with extra_link_args := args }
  | none => e1

/-- The flag-setting loops of `build_extensions` over `self.extensions`. -/
def applyCompilerFlags (c : Str) (exts : List Extension) : List Extension :=
  exts.map (applyFlagsOne c)

/-- Warning text emitted when numpy support is turned on. -/
def numpyOnMsg : Str := str "Turned ON Numpy support for fast Java array access"

/-- Warning text emitted when numpy support is explicitly opted out. -/
def numpyOffMsg : Str := str "Turned OFF Numpy support for fast Java array access"

/-- The numpy block of `build_extensions`: mutates `jpypeLib` and emits
`FeatureNotice` warnings; an `ImportError` from `import numpy` is caught
and ignored. -/
def handleNumpy (disabledNumpy numpyImportable : Bool) (numpyInclude : Str)
    (e : Extension) : Extension × List Str :=
  if !disabledNumpy then
    if numpyImportable then
      ({ e with
          defineMacros := e.defineMacros ++ [(str "HAVE_NUMPY", 1)],
          include_dirs := e.include_dirs ++ [numpyInclude] },
        [numpyOnMsg])
    else (e, [])
  else (e, [numpyOffMsg])

/-- `my_build_ext.build_extensions` acting on the single registered
extension `jpypeLib`: compiler-flag loops, then the numpy block. -/
def buildExtensions (c : Str) (disabledNumpy numpyImportable : Bool)
    (numpyInclude : Str) (e : Extension) : Extension × List Str :=
  handleNumpy disabledNumpy numpyImportable numpyInclude (applyFlagsOne c e)

theorem applyFlagsOne_defineMacros (c : Str) (e : Extension) :
    (applyFlagsOne c e).defineMacros = e.defineMacros := by
  unfold applyFlagsOne
  cases copt c <;> cases lopt c <;> rfl

theorem applyFlagsOne_include_dirs (c : Str) (e : Extension) :
    (applyFlagsOne c e).include_dirs = e.include_dirs := by
  unfold applyFlagsOne
  cases copt c <;> cases lopt c <;> rfl

/-! ### `my_build_ext.initialize_options`: the OPT rewrite -/

/-- Python `str.split()` with no argument: split on runs of whitespace,
discarding empty tokens.  Second argument is the accumulator of the
current (reversed) token. -/
def splitWSAux : Str → Str → List Str
  | [], acc => if acc = [] then [] else [acc.reverse]
  | ch :: cs, acc =>
    if ch.isWhitespace then
      if acc = [] then splitWSAux cs []
      else acc.reverse :: splitWSAux cs []
    else splitWSAux cs (ch :: acc)

/-- Python `opt.split()`. -/
def splitWS (s : Str) : List Str := splitWSAux s []

/-- Python `' '.join(tokens)`. -/
def joinSpace : List Str → Str
  | [] => []
  | [x] => x
  | x :: xs => x ++ ' ' :: joinSpace xs

/-- The flag that `initialize_options` strips from `OPT`. -/
def wsp : Str := str "-Wstrict-prototypes"

/-- The OPT rewrite of `my_build_ext.initialize_options`: given the `OPT`
config variable and the current `os.environ['OPT']`, return the new
`os.environ['OPT']`. -/
def initOptionsOPT (optVar : Option Str) (envOPT : Option Str) : Option Str :=
  if pyTruthy optVar then
    some (joinSpace ((splitWS (optVar.getD [])).filter (fun f => f ≠ wsp)))
  else envOPT

/-! ### Marshaling engine (modelled from the spec)

The native marshaling code compiled from the `native` tree is not part of
the visible sources; the definitions below are modelled from the design
spec, sections 4.3 and 8. -/

/-- Two's-complement decoding of `w` bits back to a signed integer. -/
def decodeSigned (w : Nat) (bits : Nat) : Int :=
  if bits < 2 ^ (w - 1) then (bits : Int) else (bits : Int) - 2 ^ w

/-- The four little-endian bytes of a 32-bit word. -/
def encode4 (n : Nat) : List Nat :=
  [n % 256, n / 256 % 256, n / 256 / 256 % 256, n / 256 / 256 / 256 % 256]

/-- Recombine four little-endian bytes. -/
def decode4 (b0 b1 b2 b3 : Nat) : Nat :=
  b0 + 256 * (b1 + 256 * (b2 + 256 * b3))

/-- Modelled from the spec: the element-wise numeric-array conversion
strategy of the Type Marshaling Engine (§4.3) — always available, converts
one 32-bit element at a time (the native conversion code itself is not
under the visible sources). -/
def elementWiseConvert (xs : List Int) : List Int :=
  xs.map (fun x => decodeSigned 32 (x % (2 : Int) ^ 32).toNat)

/-- Modelled from the spec: the backing buffer of a 32-bit numeric array —
the whole array encoded as one little-endian byte sequence. -/
def encodeBuffer (xs : List Int) : List Nat :=
  xs.flatMap (fun x => encode4 (x % (2 : Int) ^ 32).toNat)

/-- Decode a little-endian byte buffer back into 32-bit elements. -/
def decodeBuffer : List Nat → List Int
  | b0 :: b1 :: b2 :: b3 :: rest =>
    decodeSigned 32 (decode4 b0 b1 b2 b3) :: decodeBuffer rest
  | _ => []

/-- Modelled from the spec: the bulk conversion strategy (§4.3) — copies
the whole backing buffer in one pass, byte-for-byte. -/
def bulkConvert (xs : List Int) : List Int :=
  decodeBuffer (encodeBuffer xs)

/-- Modelled from the spec: the Marshaling Engine selects bulk when the
numeric-array extension is enabled and element-wise otherwise. -/
def marshalArray (bulkEnabled : Bool) (xs : List Int) : List Int :=
  if bulkEnabled then bulkConvert xs else elementWiseConvert xs

theorem decode4_encode4 (n : Nat) (h : n < 4294967296) :
    decode4 (n % 256) (n / 256 % 256) (n / 256 / 256 % 256)
      (n / 256 / 256 / 256 % 256) = n := by
  unfold decode4
  omega

theorem emod_toNat_lt (x : Int) : (x % (2 : Int) ^ 32).toNat < 4294967296 := by
  have h1 : x % (2 : Int) ^ 32 < 2 ^ 32 :=
    Int.emod_lt_of_pos x (by norm_num)
  omega

theorem bulk_eq_elementwise (xs : List Int) :
    bulkConvert xs = elementWiseConvert xs := by
  induction xs with
  | nil => rfl
  | cons x xs ih =>
    unfold bulkConvert at ih ⊢
    simp only [elementWiseConvert, List.map_cons, encodeBuffer,
      List.flatMap_cons] at ih ⊢
    show decodeBuffer (encode4 (x % (2 : Int) ^ 32).toNat ++ _) = _
    unfold encode4
    simp only [List.cons_append, List.nil_append, decodeBuffer]
    rw [decode4_encode4 _ (emod_toNat_lt x)]
    exact congrArg _ ih

/-! ### Scalar marshaling (modelled from the spec) -/

/-- Modelled from the spec: the supported scalar type descriptors of the
Type Marshaling Engine (the native code is not under the visible sources). -/
inductive ScalarTy where
  | tBool | tByte | tShort | tInt | tLong | tFloat | tDouble | tString
deriving DecidableEq

/-- A symbolic floating value: finite (sign, mantissa, exponent), signed
infinity, or NaN. -/
inductive FloatVal where
  | finite (sign : Bool) (mant : Nat) (exp : Int)
  | inf (sign : Bool)
  | nan
deriving DecidableEq

/-- A host-language scalar value. -/
inductive HostValue where
  | hBool (b : Bool)
  | hInt (i : Int)
  | hFloat (f : FloatVal)
  | hStr (s : Str)
deriving DecidableEq

/-- An embedded-runtime scalar value: booleans, `w`-bit two's-complement
words, width-tagged floats, and strings as code-point sequences. -/
inductive NativeValue where
  | nBool (b : Bool)
  | nBits (width : Nat) (bits : Nat)
  | nFloat (single : Bool) (f : FloatVal)
  | nStr (cps : List Nat)
deriving DecidableEq

/-- Encode a host integer into a `w`-bit two's-complement word; out-of-range
values fail (`UnsupportedConversionError`). -/
def encInt (w : Nat) (i : Int) : Option NativeValue :=
  if -((2 : Int) ^ (w - 1)) ≤ i ∧ i < (2 : Int) ^ (w - 1) then
    some (.nBits w ((i % (2 : Int) ^ w).toNat))
  else none

/-- Modelled from the spec: `to_native(hostValue, TypeDescriptor)` of the
Type Marshaling Engine (§4.3); unsupported pairs fail. -/
def to_native : ScalarTy → HostValue → Option NativeValue
  | .tBool, .hBool b => some (.nBool b)
  | .tByte, .hInt i => encInt 8 i
  | .tShort, .hInt i => encInt 16 i
  | .tInt, .hInt i => encInt 32 i
  | .tLong, .hInt i => encInt 64 i
  | .tFloat, .hFloat f => some (.nFloat true f)
  | .tDouble, .hFloat f => some (.nFloat false f)
  | .tString, .hStr s => some (.nStr (s.map Char.toNat))
  | _, _ => none

/-- Modelled from the spec: `to_host(NativeRef, expectedHostType)` of the
Type Marshaling Engine (§4.3); unsupported pairs fail. -/
def to_host : ScalarTy → NativeValue → Option HostValue
  | .tBool, .nBool b => some (.hBool b)
  | .tByte, .nBits 8 bits => some (.hInt (decodeSigned 8 bits))
  | .tShort, .nBits 16 bits => some (.hInt (decodeSigned 16 bits))
  | .tInt, .nBits 32 bits => some (.hInt (decodeSigned 32 bits))
  | .tLong, .nBits 64 bits => some (.hInt (decodeSigned 64 bits))
  | .tFloat, .nFloat true f => some (.hFloat f)
  | .tDouble, .nFloat false f => some (.hFloat f)
  | .tString, .nStr cps => some (.hStr (cps.map Char.ofNat))
  | _, _ => none

/-- A host value representable at a scalar type: correct shape, integers
within the width's two's-complement range. -/
def wellTypedb : ScalarTy → HostValue → Bool
  | .tBool, .hBool _ => true
  | .tByte, .hInt i => decide (-((2 : Int) ^ (8 - 1)) ≤ i ∧ i < (2 : Int) ^ (8 - 1))
  | .tShort, .hInt i => decide (-((2 : Int) ^ (16 - 1)) ≤ i ∧ i < (2 : Int) ^ (16 - 1))
  | .tInt, .hInt i => decide (-((2 : Int) ^ (32 - 1)) ≤ i ∧ i < (2 : Int) ^ (32 - 1))
  | .tLong, .hInt i => decide (-((2 : Int) ^ (64 - 1)) ≤ i ∧ i < (2 : Int) ^ (64 - 1))
  | .tFloat, .hFloat _ => true
  | .tDouble, .hFloat _ => true
  | .tString, .hStr _ => true
  | _, _ => false

theorem decodeSigned_encode (w : Nat) (hw : 0 < w) (i : Int)
    (h1 : -((2 : Int) ^ (w - 1)) ≤ i) (h2 : i < (2 : Int) ^ (w - 1)) :
    decodeSigned w ((i % (2 : Int) ^ w).toNat) = i := by
  have hww : (2 : Int) ^ w = 2 * 2 ^ (w - 1) := by
    have h := pow_succ (2 : Int) (w - 1)
    rw [Nat.sub_add_cancel hw] at h
    rw [h]
    ring
  have hb1 : (0 : Int) < 2 ^ (w - 1) := by positivity
  have hpow : (0 : Int) < 2 ^ w := by positivity
  have hm0 : 0 ≤ i % (2 : Int) ^ w := Int.emod_nonneg i (by omega)
  have hme : i % (2 : Int) ^ w = i ∨ i % (2 : Int) ^ w = i + 2 ^ w := by
    rcases le_or_lt 0 i with hi | hi
    · left
      exact Int.emod_eq_of_lt hi (by omega)
    · right
      have hself : (i + 2 ^ w * 1) % (2 : Int) ^ w = i % (2 : Int) ^ w :=
        Int.add_mul_emod_self_left i ((2 : Int) ^ w) 1
      rw [mul_one] at hself
      rw [← hself]
      exact Int.emod_eq_of_lt (by omega) (by omega)
  have hcast : (((2 : Nat) ^ (w - 1) : Nat) : Int) = (2 : Int) ^ (w - 1) := by
    push_cast
    rfl
  unfold decodeSigned
  split
  · rename_i hlt
    omega
  · rename_i hge
    omega

theorem encInt_bind_to_host (w : Nat) (hw : 0 < w) (T : ScalarTy) (i : Int)
    (hhost : ∀ bits, to_host T (.nBits w bits) = some (.hInt (decodeSigned w bits)))
    (h1 : -((2 : Int) ^ (w - 1)) ≤ i) (h2 : i < (2 : Int) ^ (w - 1)) :
    (encInt w i).bind (to_host T) = some (.hInt i) := by
  unfold encInt
  rw [if_pos ⟨h1, h2⟩]
  simp only [Option.some_bind]
  rw [hhost, decodeSigned_encode w hw i h1 h2]

/-- Claim C5: for every supported scalar type `T` and every representable
value `v` of that type — including min/max integer widths, NaN and infinity
for floating types, and the empty string — `to_host(to_native(v, T), T)`
equals `v`. -/
theorem claim_c5_scalar_roundtrip (T : ScalarTy) (v : HostValue)
    (h : wellTypedb T v = true) :
    (to_native T v).bind (to_host T) = some v := by
  cases T <;> cases v
  case tBool.hBool b => rfl
  case tByte.hInt i =>
    have hc := of_decide_eq_true h
    exact encInt_bind_to_host 8 (by norm_num) .tByte i (fun bits => rfl) hc.1 hc.2
  case tShort.hInt i =>
    have hc := of_decide_eq_true h
    exact encInt_bind_to_host 16 (by norm_num) .tShort i (fun bits => rfl) hc.1 hc.2
  case tInt.hInt i =>
    have hc := of_decide_eq_true h
    exact encInt_bind_to_host 32 (by norm_num) .tInt i (fun bits => rfl) hc.1 hc.2
  case tLong.hInt i =>
    have hc := of_decide_eq_true h
    exact encInt_bind_to_host 64 (by norm_num) .tLong i (fun bits => rfl) hc.1 hc.2
  case tFloat.hFloat f => rfl
  case tDouble.hFloat f => rfl
  case tString.hStr s =>
    simp only [to_native, Option.some_bind, to_host, List.map_map]
    rw [show Char.ofNat ∘ Char.toNat = id from funext fun c => Char.ofNat_toNat c]
    rw [List.map_id]
  all_goals simp [wellTypedb] at h

/-! ### Concrete fixtures used by witnesses and counterexamples -/

/-- A small concrete `native` tree. -/
def tree0 : DirTree :=
  .node [str "jpype.cpp", str "README"]
    (.cons (str "common") (.node [str "jp_array.cpp"] .nil) .nil)

/-- A concrete extension object with no flags set. -/
def ext0 : Extension :=
  { name := str "_jpype", sources := [], include_dirs := [],
    defineMacros := [], libraries := [],
    extra_compile_args := [], extra_link_args := [] }

/-- A concrete filesystem: only `/usr/lib/jvm/java-7/include` exists. -/
def exJ (p : Str) : Bool := p == str "/usr/lib/jvm/java-7/include"

/-! ### The claims -/

/-- Claim C1: when `build_extensions` runs, `HAVE_NUMPY` is appended to the
`_jpype` extension's define macros and numpy's include directory to its
include dirs if and only if `--disable-numpy` was not passed and numpy is
importable; in every other case no `HAVE_NUMPY` macro is defined. -/
theorem claim_c1_numpy_gate (c : Str) (d a : Bool) (inc : Str) (e : Extension)
    (h : (str "HAVE_NUMPY", 1) ∉ e.defineMacros) :
    ((str "HAVE_NUMPY", 1) ∈ (buildExtensions c d a inc e).1.defineMacros ↔
      d = false ∧ a = true)
    ∧ (d = false → a = true →
        (buildExtensions c d a inc e).1.defineMacros
            = e.defineMacros ++ [(str "HAVE_NUMPY", 1)]
          ∧ (buildExtensions c d a inc e).1.include_dirs
            = e.include_dirs ++ [inc]) := by
  unfold buildExtensions handleNumpy
  cases d <;> cases a <;>
    simp [applyFlagsOne_defineMacros, applyFlagsOne_include_dirs, h]

/-- Witness for C1 at a concrete extension with the numpy path enabled. -/
theorem claim_c1_witness :
    ((str "HAVE_NUMPY", 1) ∉ ext0.defineMacros)
    ∧ (buildExtensions (str "unix") false true (str "/numpy/include") ext0).1.defineMacros
        = ext0.defineMacros ++ [(str "HAVE_NUMPY", 1)]
    ∧ (buildExtensions (str "unix") false true (str "/numpy/include") ext0).1.include_dirs
        = ext0.include_dirs ++ [str "/numpy/include"] :=
  ⟨by decide,
   ((claim_c1_numpy_gate (str "unix") false true (str "/numpy/include") ext0
      (by decide)).2 rfl rfl).1,
   ((claim_c1_numpy_gate (str "unix") false true (str "/numpy/include") ext0
      (by decide)).2 rfl rfl).2⟩

theorem find?_split {α : Type} (p : α → Bool) (l : List α) (x : α)
    (h : l.find? p = some x) :
    ∃ l1 l2, l = l1 ++ x :: l2 ∧ (∀ y ∈ l1, p y = false) ∧ p x = true := by
  induction l with
  | nil => simp [List.find?] at h
  | cons a as ih =>
    by_cases hpa : p a = true
    · rw [List.find?_cons_of_pos _ hpa] at h
      obtain rfl : a = x := by injection h
      exact ⟨[], as, rfl, by simp, hpa⟩
    · have hn : p a = false := by simpa using hpa
      rw [List.find?_cons_of_neg _ hpa] at h
      obtain ⟨l1, l2, he, hall, hx⟩ := ih h
      refine ⟨a :: l1, l2, by simp [he], ?_, hx⟩
      intro y hy
      rcases List.mem_cons.mp hy with rfl | hy'
      · exact hn
      · exact hall y hy'

/-- Claim C2 (amended): on the linux branch, when `JAVA_HOME` is unset or
set to the empty string, the script scans `glob('/usr/lib/jvm/*')` followed
by `glob('/usr/java/*')` and takes the first candidate whose `include`
subdirectory exists; if none qualifies it raises `RuntimeError` after
showing an error listing the candidates; when `JAVA_HOME` is set to a
non-empty value it is used unchanged, with `<java_home>/include` and
`<java_home>/include/linux` added to the include directories. -/
theorem claim_c2_amended (t : DirTree) (jh : Option Str)
    (globJvm globJava : List Str) (pathExists : Str → Bool) :
    ((jh = none ∨ jh = some (str "")) →
      (∀ h, linuxResolveJavaHome jh globJvm globJava pathExists = .ok h →
        ∃ l1 l2, globJvm ++ globJava = l1 ++ h :: l2
          ∧ (∀ cand ∈ l1, pathExists (joinPath cand (str "include")) = false)
          ∧ pathExists (joinPath h (str "include")) = true)
      ∧ (linuxResolveJavaHome jh globJvm globJava pathExists
            = .error (globJvm ++ globJava)
          ↔ ∀ cand ∈ globJvm ++ globJava,
              pathExists (joinPath cand (str "include")) = false))
    ∧ (∀ s, jh = some s → s ≠ [] →
        linuxResolveJavaHome jh globJvm globJava pathExists = .ok s
        ∧ linuxPlatform t jh globJvm globJava pathExists = .ok (mkLinuxExt t s)
        ∧ (mkLinuxExt t s).include_dirs = base_include_dirs ++
            [joinPath s (str "include"),
             joinPath (joinPath s (str "include")) (str "linux")]) := by
  constructor
  · intro hjh
    have hf : pyTruthy jh = false := by
      rcases hjh with rfl | rfl <;> rfl
    unfold linuxResolveJavaHome
    rw [hf]
    simp only [Bool.false_eq_true, if_false]
    cases hfind : (globJvm ++ globJava).find?
        (fun home => pathExists (joinPath home (str "include"))) with
    | some h0 =>
      constructor
      · intro h heq
        obtain rfl : h0 = h := by injection heq
        exact find?_split _ _ _ hfind
      · constructor
        · intro heq
          cases heq
        · intro hall
          have : (globJvm ++ globJava).find?
              (fun home => pathExists (joinPath home (str "include"))) = none := by
            rw [List.find?_eq_none]
            intro x hx
            simp [hall x hx]
          rw [this] at hfind
          cases hfind
    | none =>
      constructor
      · intro h heq
        cases heq
      · constructor
        · intro _
          intro cand hc
          have := List.find?_eq_none.mp hfind cand hc
          simpa using this
        · intro _
          rfl
  · intro s hs hne
    subst hs
    have ht : pyTruthy (some s) = true := by
      cases s with
      | nil => exact absurd rfl hne
      | cons a l => rfl
    have hres : linuxResolveJavaHome (some s) globJvm globJava pathExists
        = .ok s := by
      unfold linuxResolveJavaHome
      rw [ht]
      rfl
    refine ⟨hres, ?_, rfl⟩
    unfold linuxPlatform
    rw [hres]

/-- Counterexample for C2 as stated: with `JAVA_HOME` set to the empty
string the script does not use that value unchanged — it guesses. -/
theorem claim_c2_counterexample :
    linuxResolveJavaHome (some (str "")) [str "/usr/lib/jvm/java-7"] [] exJ
        = .ok (str "/usr/lib/jvm/java-7")
    ∧ linuxResolveJavaHome (some (str "")) [str "/usr/lib/jvm/java-7"] [] exJ
        ≠ .ok (str "") :=
  ⟨by decide, by decide⟩

/-- Witness for C2 (amended) at a concrete non-empty `JAVA_HOME`. -/
theorem claim_c2_witness :
    linuxResolveJavaHome (some (str "/opt/jdk")) [] [] exJ = .ok (str "/opt/jdk")
    ∧ linuxPlatform tree0 (some (str "/opt/jdk")) [] [] exJ
        = .ok (mkLinuxExt tree0 (str "/opt/jdk"))
    ∧ (mkLinuxExt tree0 (str "/opt/jdk")).include_dirs = base_include_dirs ++
        [joinPath (str "/opt/jdk") (str "include"),
         joinPath (joinPath (str "/opt/jdk") (str "include")) (str "linux")] :=
  (claim_c2_amended tree0 (some (str "/opt/jdk")) [] [] exJ).2
    (str "/opt/jdk") rfl (by decide)

/-- Claim C3: the `_jpype` extension is assembled from exactly the files of
a recursive walk of the `native` tree ending in `.cpp` or `.c`; its include
directories always contain `native/common/include` and
`native/python/include`; no source file outside the `native` tree is
compiled into the extension (every source path has `native` as a prefix). -/
theorem claim_c3_native_sources (t : DirTree) (hw : treeWFb t = true) :
    (∀ s ∈ find_sources t, str "native" <+: s)
    ∧ base_include_dirs
        = [str "native/common/include", str "native/python/include"]
    ∧ (∀ jh e, winPlatform t jh = .ok e →
        e.name = str "_jpype" ∧ e.sources = find_sources t
        ∧ str "native/common/include" ∈ e.include_dirs
        ∧ str "native/python/include" ∈ e.include_dirs)
    ∧ (∀ jh globJvm globJava pathExists e,
        linuxPlatform t jh globJvm globJava pathExists = .ok e →
        e.name = str "_jpype" ∧ e.sources = find_sources t
        ∧ str "native/common/include" ∈ e.include_dirs
        ∧ str "native/python/include" ∈ e.include_dirs)
    ∧ (∀ jdkIncludes,
        (darwinPlatform t jdkIncludes).name = str "_jpype"
        ∧ (darwinPlatform t jdkIncludes).sources = find_sources t
        ∧ str "native/common/include" ∈ (darwinPlatform t jdkIncludes).include_dirs
        ∧ str "native/python/include" ∈ (darwinPlatform t jdkIncludes).include_dirs) := by
  have hbase : base_include_dirs
      = [str "native/common/include", str "native/python/include"] := by decide
  have hmem1 : ∀ rest : List Str, str "native/common/include"
      ∈ base_include_dirs ++ rest := by
    intro rest
    rw [hbase]
    simp
  have hmem2 : ∀ rest : List Str, str "native/python/include"
      ∈ base_include_dirs ++ rest := by
    intro rest
    rw [hbase]
    simp
  refine ⟨find_sources_under_native t hw, hbase, ?_, ?_, ?_⟩
  · intro jh e heq
    unfold winPlatform at heq
    split at heq
    · obtain rfl : mkWinExt t (jh.getD []) = e := by injection heq
      exact ⟨rfl, rfl, hmem1 _, hmem2 _⟩
    · cases heq
  · intro jh globJvm globJava pathExists e heq
    unfold linuxPlatform at heq
    split at heq
    · cases heq
    · rename_i home hhome
      obtain rfl : mkLinuxExt t home = e := by injection heq
      exact ⟨rfl, rfl, hmem1 _, hmem2 _⟩
  · intro jdkIncludes
    exact ⟨rfl, rfl, hmem1 _, hmem2 _⟩

/-- Witness for C3 at a concrete tree. -/
theorem claim_c3_witness :
    treeWFb tree0 = true
    ∧ base_include_dirs
        = [str "native/common/include", str "native/python/include"]
    ∧ str "native" <+:
        joinPath (joinPath (str "native") (str "common")) (str "jp_array.cpp") :=
  ⟨by decide, (claim_c3_native_sources tree0 (by decide)).2.1,
   (claim_c3_native_sources tree0 (by decide)).1
     (joinPath (joinPath (str "native") (str "common")) (str "jp_array.cpp"))
     (by decide)⟩

/-- Claim C4: for every input array (length 0, 1 or more), the bulk and
element-wise strategies produce identical output sequences, and the
Marshaling Engine selects bulk exactly when the numeric-array extension is
enabled, element-wise otherwise. -/
theorem claim_c4_strategies (bulkEnabled : Bool) (xs : List Int) :
    marshalArray bulkEnabled xs
        = (if bulkEnabled then bulkConvert xs else elementWiseConvert xs)
    ∧ bulkConvert xs = elementWiseConvert xs
    ∧ marshalArray true xs = bulkConvert xs
    ∧ marshalArray false xs = elementWiseConvert xs :=
  ⟨rfl, bulk_eq_elementwise xs, rfl, rfl⟩

/-- Witness for C5 at NaN, the minimal 64-bit integer, and the empty string. -/
theorem claim_c5_witness :
    wellTypedb .tDouble (.hFloat .nan) = true
    ∧ (to_native .tDouble (.hFloat .nan)).bind (to_host .tDouble)
        = some (.hFloat .nan)
    ∧ wellTypedb .tLong (.hInt (-(2 ^ 63))) = true
    ∧ (to_native .tLong (.hInt (-(2 ^ 63)))).bind (to_host .tLong)
        = some (.hInt (-(2 ^ 63)))
    ∧ wellTypedb .tString (.hStr (str "")) = true
    ∧ (to_native .tString (.hStr (str ""))).bind (to_host .tString)
        = some (.hStr (str "")) :=
  ⟨by decide, claim_c5_scalar_roundtrip _ _ (by decide),
   by decide, claim_c5_scalar_roundtrip _ _ (by decide),
   by decide, claim_c5_scalar_roundtrip _ _ (by decide)⟩

/-- Claim C6 (amended): on win32, when `JAVA_HOME` is unset or set to the
empty string the script terminates with
`SystemExit('Environment variable JAVA_HOME must be set.')` before any
extension is constructed and no JDK guessing is attempted; when it is set
to a non-empty value, the `Advapi32` library, the `WIN32` macro and the
JDK's `include` and `include/win32` directories are configured. -/
theorem claim_c6_win32 (t : DirTree) (jh : Option Str) :
    ((jh = none ∨ jh = some (str "")) →
      winPlatform t jh
        = .error (str "Environment variable JAVA_HOME must be set."))
    ∧ (∀ s, jh = some s → s ≠ [] →
        winPlatform t jh = .ok (mkWinExt t s)
        ∧ (mkWinExt t s).libraries = [str "Advapi32"]
        ∧ (mkWinExt t s).defineMacros = [(str "WIN32", 1)]
        ∧ (mkWinExt t s).include_dirs = base_include_dirs ++
            [joinPath s (str "include"),
             joinPath (joinPath s (str "include")) (str "win32")]) := by
  constructor
  · intro hjh
    have hf : pyTruthy jh = false := by
      rcases hjh with rfl | rfl <;> rfl
    unfold winPlatform
    rw [hf]
    rfl
  · intro s hs hne
    subst hs
    have ht : pyTruthy (some s) = true := by
      cases s with
      | nil => exact absurd rfl hne
      | cons a l => rfl
    refine ⟨?_, rfl, rfl, rfl⟩
    unfold winPlatform
    rw [ht]
    rfl

/-- Counterexample for C6 as stated: with `JAVA_HOME` set to the empty
string the script still exits instead of configuring the extension. -/
theorem claim_c6_counterexample :
    winPlatform tree0 (some (str ""))
        = .error (str "Environment variable JAVA_HOME must be set.")
    ∧ winPlatform tree0 (some (str "")) ≠ .ok (mkWinExt tree0 (str "")) :=
  ⟨by decide, by decide⟩

/-- Witness for C6 (amended) at a concrete non-empty `JAVA_HOME`. -/
theorem claim_c6_witness :
    winPlatform tree0 (some (str "C:/jdk"))
        = .ok (mkWinExt tree0 (str "C:/jdk"))
    ∧ (mkWinExt tree0 (str "C:/jdk")).libraries = [str "Advapi32"]
    ∧ (mkWinExt tree0 (str "C:/jdk")).defineMacros = [(str "WIN32", 1)]
    ∧ (mkWinExt tree0 (str "C:/jdk")).include_dirs = base_include_dirs ++
        [joinPath (str "C:/jdk") (str "include"),
         joinPath (joinPath (str "C:/jdk") (str "include")) (str "win32")] :=
  (claim_c6_win32 tree0 (some (str "C:/jdk"))).2 (str "C:/jdk") rfl (by decide)

/-- Claim C7: during `build_extensions` the per-compiler flag tables are
applied to every extension: `msvc` sets extra compile args to `['/EHsc']`,
`gcc` and `mingw32` set them to `[]`, only `mingw32` additionally sets
extra link args (to `[]`), and any other compiler type leaves the
extensions unchanged. -/
theorem claim_c7_flag_tables (c : Str) (exts : List Extension) :
    (c = str "msvc" → applyCompilerFlags c exts
        = exts.map fun e => { e with extra_compile_args := [str "/EHsc"] })
    ∧ (c = str "gcc" → applyCompilerFlags c exts
        = exts.map fun e => { e with extra_compile_args := [] })
    ∧ (c = str "mingw32" → applyCompilerFlags c exts
        = exts.map fun e =>
            { e with extra_compile_args := [], extra_link_args := [] })
    ∧ (c ≠ str "msvc" → c ≠ str "gcc" → c ≠ str "mingw32" →
        applyCompilerFlags c exts = exts) := by
  refine ⟨?_, ?_, ?_, ?_⟩
  · intro h
    subst h
    rfl
  · intro h
    subst h
    rfl
  · intro h
    subst h
    rfl
  · intro h1 h2 h3
    have hc : copt c = none := by
      unfold copt
      rw [if_neg h1, if_neg h2, if_neg h3]
    have hl : lopt c = none := by
      unfold lopt
      rw [if_neg h3]
    unfold applyCompilerFlags applyFlagsOne
    simp [hc, hl]

/-- Witness for C7 at the `msvc` table entry and an unknown compiler. -/
theorem claim_c7_witness :
    applyCompilerFlags (str "msvc") [ext0]
        = [{ ext0 with extra_compile_args := [str "/EHsc"] }]
    ∧ applyCompilerFlags (str "unix") [ext0] = [ext0] :=
  ⟨(claim_c7_flag_tables (str "msvc") [ext0]).1 rfl,
   (claim_c7_flag_tables (str "unix") [ext0]).2.2.2
     (by decide) (by decide) (by decide)⟩

/-- Claim C8: parsing `--disable-numpy` mutates only that entry of the
command line — when present exactly one occurrence is removed and all
other arguments keep their order; when absent `sys.argv` is unchanged. -/
theorem claim_c8_argv (argv : List Str) :
    (dFlag ∉ argv → parseArgv argv = (false, argv))
    ∧ (dFlag ∈ argv → ∃ l1 l2, argv = l1 ++ dFlag :: l2 ∧ dFlag ∉ l1 ∧
        parseArgv argv = (true, l1 ++ l2)) := by
  constructor
  · intro h
    unfold parseArgv
    rw [if_neg h]
  · intro h
    obtain ⟨l1, l2, he, hn, hr⟩ := listRemoveFirst_split argv h
    refine ⟨l1, l2, he, hn, ?_⟩
    unfold parseArgv
    rw [if_pos h, hr]

/-- Witness for C8 at a command line without the flag. -/
theorem claim_c8_witness :
    dFlag ∉ [str "setup.py", str "build"]
    ∧ parseArgv [str "setup.py", str "build"]
        = (false, [str "setup.py", str "build"]) :=
  ⟨by decide, (claim_c8_argv [str "setup.py", str "build"]).1 (by decide)⟩

/-- Claim C9: `initialize_options` rewrites `os.environ['OPT']` by removing
every occurrence of `-Wstrict-prototypes` from the `OPT` config variable
while preserving all other flags in order, joined by single spaces; when
`OPT` is empty or unset the environment is left unmodified. -/
theorem claim_c9_opt_rewrite (optVar envOPT : Option Str) :
    (pyTruthy optVar = false → initOptionsOPT optVar envOPT = envOPT)
    ∧ (∀ s, optVar = some s → s ≠ [] →
        initOptionsOPT optVar envOPT
          = some (joinSpace ((splitWS s).filter (fun f => f ≠ wsp)))
        ∧ wsp ∉ (splitWS s).filter (fun f => f ≠ wsp)
        ∧ List.Sublist ((splitWS s).filter (fun f => f ≠ wsp)) (splitWS s)) := by
  constructor
  · intro h
    unfold initOptionsOPT
    rw [h]
    rfl
  · intro s hs hne
    subst hs
    have ht : pyTruthy (some s) = true := by
      cases s with
      | nil => exact absurd rfl hne
      | cons a l => rfl
    refine ⟨?_, ?_, List.filter_sublist _⟩
    · unfold initOptionsOPT
      rw [ht]
      rfl
    · intro hmem
      have := (List.mem_filter.mp hmem).2
      simp at this

/-- Witness for C9 at a concrete `OPT` value and an unset one. -/
theorem claim_c9_witness :
    initOptionsOPT (some (str "-g -Wstrict-prototypes -O2")) none
      = some (joinSpace
          ((splitWS (str "-g -Wstrict-prototypes -O2")).filter (fun f => f ≠ wsp)))
    ∧ wsp ∉ (splitWS (str "-g -Wstrict-prototypes -O2")).filter (fun f => f ≠ wsp)
    ∧ List.Sublist
        ((splitWS (str "-g -Wstrict-prototypes -O2")).filter (fun f => f ≠ wsp))
        (splitWS (str "-g -Wstrict-prototypes -O2"))
    ∧ initOptionsOPT (some (str "-g -Wstrict-prototypes -O2")) none
        = some (str "-g -O2")
    ∧ initOptionsOPT none (some (str "-fPIC")) = some (str "-fPIC") :=
  ⟨((claim_c9_opt_rewrite (some (str "-g -Wstrict-prototypes -O2")) none).2
      _ rfl (by decide)).1,
   ((claim_c9_opt_rewrite (some (str "-g -Wstrict-prototypes -O2")) none).2
      _ rfl (by decide)).2.1,
   ((claim_c9_opt_rewrite (some (str "-g -Wstrict-prototypes -O2")) none).2
      _ rfl (by decide)).2.2,
   by decide,
   (claim_c9_opt_rewrite none (some (str "-fPIC"))).1 rfl⟩

/-- Claim C10: when numpy is not importable and `--disable-numpy` was not
passed, `build_extensions` swallows the `ImportError` silently — no
warning, no `HAVE_NUMPY` macro, no added include directory, and the build
proceeds — whereas the explicit opt-out emits a `FeatureNotice` warning. -/
theorem claim_c10_silent_import_error (c inc : Str) (e : Extension) :
    ((buildExtensions c false false inc e).2 = []
      ∧ (buildExtensions c false false inc e).1 = applyFlagsOne c e
      ∧ (buildExtensions c false false inc e).1.defineMacros = e.defineMacros
      ∧ (buildExtensions c false false inc e).1.include_dirs = e.include_dirs)
    ∧ ∀ a : Bool, (buildExtensions c true a inc e).2 = [numpyOffMsg] :=
  ⟨⟨rfl, rfl, applyFlagsOne_defineMacros c e, applyFlagsOne_include_dirs c e⟩,
   fun _ => rfl⟩

end Jpype
